import Mathlib

/-!
Verification development for the GameOfLife repository (bitfetti/GameOfLife).

The embedding follows the two source files:
- src/inc/GameOfLife.hpp (double-buffered image pair imageA/imageB with the
  switchImages flag, countDigits, the 4-byte packed setState, getImage,
  switchPause, ALIVE = 255 / DEAD = 0);
- src/src/GameOfLife.cpp (setup, setupHost, setupDevice, spawnPopulation with
  its one-int-per-cell setState, nextGeneration).

The per-cell generation step itself (nextGenerationCPU, getNumberOfNeighbours
and the OpenCL kernel body) is declared but not implemented under src/, so the
stepping core is modelled from the spec (sections 3, 4.2, 4.3, 4.4, 4.5) and
marked as such below. Machine integers are modelled as Nat with explicit
mod 4294967296 where 32-bit wrap matters; the C float comparison in
spawnPopulation is modelled exactly over the rationals.
-/

/-- From src/inc/GameOfLife.hpp lines 27-32: the while loop of countDigits,
with fuel making the possible non-termination observable. The comparison
value is an unsigned int, so the multiplication wraps mod 2 ^ 32. -/
def countDigitsLoop : Nat → Nat → Nat → Nat → Option Nat
  | 0, _, _, _ => none
  | fuel + 1, x, value, count =>
      if value ≤ x then countDigitsLoop fuel x (value * 10 % 4294967296) (count + 1)
      else some count

/-- From src/inc/GameOfLife.hpp lines 27-32: countDigits starts the loop with
value = 10 and count = 1. -/
def countDigits (x : Nat) (fuel : Nat) : Option Nat :=
  countDigitsLoop fuel x 10 1

/-- From src/src/GameOfLife.cpp lines 50-52: setState writes one int at index
x + width * y of the host image. -/
def setStateCpp (W : Nat) (x y : Nat) (st : Int) (img : Nat → Int) : Nat → Int :=
  fun i => if i = x + W * y then st else img i

/-- From src/src/GameOfLife.cpp lines 46-48: getState reads the int at index
x + width * y. -/
def getStateCpp (W : Nat) (x y : Nat) (img : Nat → Int) : Int :=
  img (x + W * y)

/-- From src/inc/GameOfLife.hpp lines 423-428: the packed 4-byte setState of
the header revision duplicates the given state into three channels and writes
the marker byte 1 into the fourth channel. -/
def setStateHpp (W : Nat) (x y : Nat) (state : Nat) (img : Nat → Nat) : Nat → Nat :=
  fun i =>
    if i = 4 * x + 4 * W * y then state
    else if i = (4 * x + 1) + 4 * W * y then state
    else if i = (4 * x + 2) + 4 * W * y then state
    else if i = (4 * x + 3) + 4 * W * y then 1
    else img i

/-- The cell value written by one iteration of the spawnPopulation loop of
src/src/GameOfLife.cpp lines 35-39: the draw is taken mod 100, divided by 100
as in the float expression, and compared against the population density. -/
def spawnVal (p : ℚ) (H : Nat) (draws : Nat → Nat) (x y : Nat) : Int :=
  if ((draws (x * H + y) % 100 : Nat) : ℚ) / 100 > p then 0 else 1

/-- Inner loop of spawnPopulation (src/src/GameOfLife.cpp lines 34-40) for a
fixed column x, folding over the list of y values; rand() is modelled as the
stream draws indexed by the call counter x * H + y. -/
def spawnInner (p : ℚ) (W H : Nat) (draws : Nat → Nat) (x : Nat)
    (l : List Nat) (img : Nat → Int) : Nat → Int :=
  l.foldl
    (fun img y =>
      if ((draws (x * H + y) % 100 : Nat) : ℚ) / 100 > p then setStateCpp W x y 0 img
      else setStateCpp W x y 1 img)
    img

/-- Outer loop of spawnPopulation (src/src/GameOfLife.cpp lines 33-41),
folding the inner loop over the list of x values. -/
def spawnOuter (p : ℚ) (W H : Nat) (draws : Nat → Nat)
    (l : List Nat) (img : Nat → Int) : Nat → Int :=
  l.foldl (fun img x => spawnInner p W H draws x (List.range H) img) img

/-- From src/src/GameOfLife.cpp lines 26-44: spawnPopulation iterates x from 0
to width-1 and y from 0 to height-1, drawing one random value per cell and
writing 0 or 1 through setState. -/
def spawnPopulation (p : ℚ) (W H : Nat) (draws : Nat → Nat)
    (img0 : Nat → Int) : Nat → Int :=
  spawnOuter p W H draws (List.range W) img0

/-- Failure-injection environment for the setup path of src/src/GameOfLife.cpp:
mallocOk models the malloc result in setupHost, clOk models the try block of
setupDevice up to the kernel object, clRunOk models the try block of
nextGeneration, sizeX/sizeY are the work-group tile dimensions and
kernelWorkGroupSize the device limit queried at line 111. -/
structure GolEnv where
  mallocOk : Bool
  clOk : Bool
  clRunOk : Bool
  sizeX : Nat
  sizeY : Nat
  kernelWorkGroupSize : Nat
  width : Nat
  height : Nat
  population : ℚ
  draws : Nat → Nat
  mallocContents : Nat → Int

/-- Observable host state touched by setup: the host image pointer (none
before malloc) and whether device initialisation completed. -/
structure HostState where
  image : Option (Nat → Int)
  deviceReady : Bool

/-- From src/src/GameOfLife.cpp lines 14-24: setupHost mallocs the image and
seeds it with spawnPopulation (which always returns 0); on malloc failure it
returns -1 leaving the state unchanged. -/
def setupHost (e : GolEnv) (s : HostState) : Int × HostState :=
  if e.mallocOk then
    let seeded := spawnPopulation e.population e.width e.height e.draws e.mallocContents
    (0, { s with image := some seeded })
  else (-1, s)

/-- From src/src/GameOfLife.cpp lines 54-134: setupDevice fails (-1) when the
OpenCL try block throws, or when sizeX * sizeY exceeds the kernel work-group
size queried from the device (lines 114-119); otherwise it returns 0. -/
def setupDevice (e : GolEnv) (s : HostState) : Int × HostState :=
  if e.clOk then
    if e.kernelWorkGroupSize < e.sizeX * e.sizeY then (-1, s)
    else (0, { s with deviceReady := true })
  else (-1, s)

/-- From src/src/GameOfLife.cpp lines 4-12: setup runs setupHost then
setupDevice, returning -1 as soon as one of them fails. -/
def setup (e : GolEnv) (s : HostState) : Int × HostState :=
  if (setupHost e s).1 ≠ 0 then (-1, (setupHost e s).2)
  else if (setupDevice e (setupHost e s).2).1 ≠ 0 then
    (-1, (setupDevice e (setupHost e s).2).2)
  else (0, (setupDevice e (setupHost e s).2).2)

/-- From src/src/GameOfLife.cpp lines 136-159: nextGeneration runs the kernel
and reads the result back; it fails only when the OpenCL try block throws.
It performs no check of the tile dimensions. -/
def nextGeneration (e : GolEnv) : Int :=
  if e.clRunOk then 0 else -1

/-- Driver composition: setup followed by n generation steps; returns the
status and the number of generations actually computed (0 when setup fails,
since the caller never reaches nextGeneration then). -/
def simulate (e : GolEnv) (s : HostState) (n : Nat) : Int × Nat :=
  if (setup e s).1 ≠ 0 then (-1, 0)
  else if nextGeneration e = 0 then (0, n) else (-1, 0)

/-- Scheduler flags of the GameOfLife class
(src/inc/GameOfLife.hpp lines 49-53). -/
structure SchedState where
  paused : Bool
  singleGen : Bool
  cpuMode : Bool
  generations : Nat

/-- From src/inc/GameOfLife.hpp lines 208-210: switchPause negates paused and
touches nothing else. -/
def switchPause (s : SchedState) : SchedState :=
  { s with paused := !s.paused }

/-- Boundary policy of the spec (section 3): WRAP is toroidal adjacency,
CLAMP treats out-of-range neighbours as dead. -/
inductive Policy where
  | wrap : Policy
  | clamp : Policy

/-- Rule table of the spec (section 3): two 9-entry boolean masks indexed by
the neighbour count. -/
structure Rules where
  survive : Nat → Bool
  birth : Nat → Bool

/-- A grid buffer: cell intensity at column x, row y. Only the cells with
x < W and y < H belong to the buffer. -/
abbrev GridBuffer := Nat → Nat → Nat

/-- Modelled from the spec (section 4.2, NeighborCounter; the source bodies of
getNumberOfNeighbours and the OpenCL kernel are not under src/): the
contribution of the neighbour at integer coordinates (cx, cy) - under WRAP the
coordinates are taken modulo W and H, under CLAMP out-of-range coordinates
contribute 0; any nonzero intensity counts as alive. -/
def liveAt (W H : Nat) (pol : Policy) (g : GridBuffer) (cx cy : Int) : Nat :=
  match pol with
  | Policy.wrap =>
      if g (cx % (W : Int)).toNat (cy % (H : Int)).toNat = 0 then 0 else 1
  | Policy.clamp =>
      if 0 ≤ cx ∧ cx < (W : Int) ∧ 0 ≤ cy ∧ cy < (H : Int) then
        (if g cx.toNat cy.toNat = 0 then 0 else 1)
      else 0

/-- Modelled from the spec (section 4.2): the number of live cells among the 8
Moore neighbours of (x, y). -/
def neighborCount (W H : Nat) (pol : Policy) (g : GridBuffer) (x y : Nat) : Nat :=
  liveAt W H pol g ((x : Int) - 1) ((y : Int) - 1) +
  liveAt W H pol g ((x : Int) - 1) (y : Int) +
  liveAt W H pol g ((x : Int) - 1) ((y : Int) + 1) +
  liveAt W H pol g (x : Int) ((y : Int) - 1) +
  liveAt W H pol g (x : Int) ((y : Int) + 1) +
  liveAt W H pol g ((x : Int) + 1) ((y : Int) - 1) +
  liveAt W H pol g ((x : Int) + 1) (y : Int) +
  liveAt W H pol g ((x : Int) + 1) ((y : Int) + 1)

/-- Modelled from the spec (section 4.1, RuleTable.apply and section 3): a
live cell (nonzero intensity) survives according to the survive mask, a dead
cell is born according to the birth mask; the canonical intensities 255 and 0
are written. -/
def applyRule (R : Rules) (cur : Nat) (n : Nat) : Nat :=
  if cur ≠ 0 then (if R.survive n then 255 else 0)
  else (if R.birth n then 255 else 0)

/-- Modelled from the spec (section 4.4, ParallelBackend): one kernel launch
computes every cell of the next generation independently from the front
buffer. -/
def parStep (W H : Nat) (pol : Policy) (R : Rules) (g : GridBuffer) : GridBuffer :=
  fun x y => applyRule R (g x y) (neighborCount W H pol g x y)

/-- Point update of a back buffer at cell (x0, y0). -/
def writeCell (b : GridBuffer) (x0 y0 v : Nat) : GridBuffer :=
  fun x y => if x = x0 ∧ y = y0 then v else b x y

/-- Modelled from the spec (section 4.3, SequentialBackend): the inner loop of
the sequential step writes the cells of column x one by one into the back
buffer, reading only the front buffer g. -/
def seqRow (W H : Nat) (pol : Policy) (R : Rules) (g : GridBuffer) (x : Nat)
    (l : List Nat) (b : GridBuffer) : GridBuffer :=
  l.foldl (fun b y => writeCell b x y (applyRule R (g x y) (neighborCount W H pol g x y))) b

/-- Modelled from the spec (section 4.3): the outer loop of the sequential
step over the columns. -/
def seqRows (W H : Nat) (pol : Policy) (R : Rules) (g : GridBuffer)
    (l : List Nat) (b : GridBuffer) : GridBuffer :=
  l.foldl (fun b x => seqRow W H pol R g x (List.range H) b) b

/-- Modelled from the spec (section 4.3): one sequential generation step from
front buffer g into the back buffer b0, visiting every cell once. -/
def seqStepFrom (W H : Nat) (pol : Policy) (R : Rules) (g b0 : GridBuffer) : GridBuffer :=
  seqRows W H pol R g (List.range W) b0

/-- Modelled from the spec (sections 4.3 and 4.5): k sequential steps with the
double-buffer ping-pong; the pair is (front, back). -/
def seqIter (W H : Nat) (pol : Policy) (R : Rules) :
    Nat → GridBuffer × GridBuffer → GridBuffer × GridBuffer
  | 0, fb => fb
  | k + 1, fb =>
      (seqStepFrom W H pol R (seqIter W H pol R k fb).1 (seqIter W H pol R k fb).2,
       (seqIter W H pol R k fb).1)

/-- Modelled from the spec (section 4.4): the batched parallel backend runs
the per-cell kernel k times, alternating its device buffers, and the result
read back to the host is the k-fold iterate of the kernel map. -/
def parIter (W H : Nat) (pol : Policy) (R : Rules) : Nat → GridBuffer → GridBuffer
  | 0, g => g
  | k + 1, g => parStep W H pol R (parIter W H pol R k g)

/-- Double-buffered grid state of src/inc/GameOfLife.hpp lines 43-47: the two
host images and the switchImages flag choosing which one is front. -/
structure GridState where
  imageA : GridBuffer
  imageB : GridBuffer
  switchImages : Bool

/-- The buffer currently holding the last computed generation, selected by the
switchImages flag exactly as in switchCPUMode
(src/inc/GameOfLife.hpp lines 186-203). -/
def frontBuf (s : GridState) : GridBuffer :=
  if s.switchImages then s.imageA else s.imageB

/-- The other buffer, written during the next step. -/
def backBuf (s : GridState) : GridBuffer :=
  if s.switchImages then s.imageB else s.imageA

/-- From src/inc/GameOfLife.hpp lines 259-261: getImage returns imageA
unconditionally. -/
def getImage (s : GridState) : GridBuffer :=
  s.imageA

/-- Modelled from the spec (sections 3 and 4.5; the nextGenerationCPU and
nextGenerationOpenCL bodies are not under src/): one completed generation step
computes the new generation from the front buffer with the step function f,
stores it in the back buffer, and flips the switchImages flag once. -/
def stepGS (f : GridBuffer → GridBuffer) (s : GridState) : GridState :=
  if s.switchImages then
    { imageA := s.imageA, imageB := f s.imageA, switchImages := false }
  else
    { imageA := f s.imageB, imageB := s.imageB, switchImages := true }

/-- n completed generation steps. -/
def stepsGS (f : GridBuffer → GridBuffer) : Nat → GridState → GridState
  | 0, s => s
  | n + 1, s => stepsGS f n (stepGS f s)

/-- The classic 23/3 rule table: survive on 2 or 3 neighbours, birth on 3. -/
def lifeRules : Rules :=
  { survive := fun n => n == 2 || n == 3, birth := fun n => n == 3 }

/-- A vertical blinker in column 1 of a 3 x 3 grid. -/
def blinker : GridBuffer :=
  fun x y => if x = 1 ∧ y ≤ 2 then 255 else 0

/-- The all-dead buffer. -/
def zeroBuf : GridBuffer :=
  fun _ _ => 0

/-- The all-alive buffer. -/
def allOn : GridBuffer :=
  fun _ _ => 255

/-- One life step on a 1 x 1 WRAP grid; the single cell sees itself as all
8 neighbours. -/
def lifeStep1 : GridBuffer → GridBuffer :=
  parStep 1 1 Policy.wrap lifeRules

/-- A state whose front buffer (imageA) is all alive. -/
def overcrowded : GridState :=
  { imageA := allOn, imageB := zeroBuf, switchImages := true }

/-- The identity step function, used to exercise the swap mechanics alone. -/
def idStep : GridBuffer → GridBuffer :=
  fun g => g

/-- A state with the switchImages flag in its initial (true) position. -/
def parityDemo : GridState :=
  { imageA := zeroBuf, imageB := zeroBuf, switchImages := true }

/-- Environment whose tile dimensions 32 x 32 exceed the work-group limit 256
while everything else succeeds. -/
def tileEnv : GolEnv :=
  { mallocOk := true, clOk := true, clRunOk := true, sizeX := 32, sizeY := 32,
    kernelWorkGroupSize := 256, width := 4, height := 4, population := 1/2,
    draws := fun _ => 0, mallocContents := fun _ => 0 }

/-- Environment where host setup succeeds and device setup throws. -/
def noClEnv : GolEnv :=
  { mallocOk := true, clOk := false, clRunOk := false, sizeX := 1, sizeY := 1,
    kernelWorkGroupSize := 1, width := 2, height := 2, population := 1/2,
    draws := fun _ => 0, mallocContents := fun _ => 0 }

/-- The state before setup: no host image, no device. -/
def freshState : HostState :=
  { image := none, deviceReady := false }

/-- Cell indices x + W * y are injective for x below the width. -/
theorem gridIndex_inj (W x0 x1 y0 y1 : Nat) (h0 : x0 < W) (h1 : x1 < W)
    (h : x0 + W * y0 = x1 + W * y1) : x0 = x1 ∧ y0 = y1 := by
  have e0 : (x0 + W * y0) % W = x0 := by
    rw [Nat.add_mul_mod_self_left]; exact Nat.mod_eq_of_lt h0
  have e1 : (x1 + W * y1) % W = x1 := by
    rw [Nat.add_mul_mod_self_left]; exact Nat.mod_eq_of_lt h1
  have ex : x0 = x1 := by rw [← e0, h, e1]
  subst ex
  refine ⟨rfl, ?_⟩
  have hmul : W * y0 = W * y1 := Nat.add_left_cancel h
  exact Nat.eq_of_mul_eq_mul_left (Nat.lt_of_le_of_lt (Nat.zero_le x0) h0) hmul

/-- One iteration of the spawnPopulation inner loop is a single setState write
of the value spawnVal. -/
theorem spawnBody_eq (p : ℚ) (W H : Nat) (draws : Nat → Nat) (x y : Nat) (img : Nat → Int) :
    (if ((draws (x * H + y) % 100 : Nat) : ℚ) / 100 > p then setStateCpp W x y 0 img
     else setStateCpp W x y 1 img) = setStateCpp W x y (spawnVal p H draws x y) img := by
  by_cases h : ((draws (x * H + y) % 100 : Nat) : ℚ) / 100 > p <;> simp [spawnVal, h]

/-- The inner loop leaves indices it never writes untouched. -/
theorem spawnInner_ne (p : ℚ) (W H : Nat) (draws : Nat → Nat) (x : Nat) :
    ∀ (l : List Nat) (img : Nat → Int) (i : Nat),
      (∀ y ∈ l, i ≠ x + W * y) → spawnInner p W H draws x l img i = img i := by
  intro l
  induction l with
  | nil => intro img i _; rfl
  | cons y t ih =>
    intro img i h
    have hstep : spawnInner p W H draws x (y :: t) img =
        spawnInner p W H draws x t
          (if ((draws (x * H + y) % 100 : Nat) : ℚ) / 100 > p then setStateCpp W x y 0 img
           else setStateCpp W x y 1 img) := rfl
    rw [hstep, spawnBody_eq,
      ih _ i (fun y' hy' => h y' (List.mem_cons_of_mem y hy'))]
    have hne : i ≠ x + W * y := h y (List.mem_cons_self y t)
    simp [setStateCpp, hne]

/-- The inner loop writes exactly spawnVal at each of its cells. -/
theorem spawnInner_mem (p : ℚ) (W H : Nat) (draws : Nat → Nat) (x : Nat) (hW : 0 < W) :
    ∀ (l : List Nat) (img : Nat → Int) (y0 : Nat), y0 ∈ l →
      spawnInner p W H draws x l img (x + W * y0) = spawnVal p H draws x y0 := by
  intro l
  induction l with
  | nil => intro img y0 h; simp at h
  | cons y t ih =>
    intro img y0 h
    have hstep : spawnInner p W H draws x (y :: t) img =
        spawnInner p W H draws x t
          (if ((draws (x * H + y) % 100 : Nat) : ℚ) / 100 > p then setStateCpp W x y 0 img
           else setStateCpp W x y 1 img) := rfl
    rw [hstep, spawnBody_eq]
    by_cases hy : y0 ∈ t
    · exact ih _ y0 hy
    · have hyy : y0 = y := by
        rcases List.mem_cons.mp h with h1 | h2
        · exact h1
        · exact absurd h2 hy
      subst hyy
      have hpres : spawnInner p W H draws x t
          (setStateCpp W x y0 (spawnVal p H draws x y0) img) (x + W * y0) =
          setStateCpp W x y0 (spawnVal p H draws x y0) img (x + W * y0) := by
        apply spawnInner_ne
        intro y' hy' heq
        have hmul : W * y0 = W * y' := Nat.add_left_cancel heq
        have : y0 = y' := Nat.eq_of_mul_eq_mul_left hW hmul
        exact hy (this ▸ hy')
      rw [hpres]
      simp [setStateCpp]

/-- The outer loop leaves indices outside its columns untouched. -/
theorem spawnOuter_ne (p : ℚ) (W H : Nat) (draws : Nat → Nat) :
    ∀ (l : List Nat) (img : Nat → Int) (i : Nat),
      (∀ x ∈ l, ∀ y, y < H → i ≠ x + W * y) → spawnOuter p W H draws l img i = img i := by
  intro l
  induction l with
  | nil => intro img i _; rfl
  | cons x t ih =>
    intro img i h
    have hstep : spawnOuter p W H draws (x :: t) img =
        spawnOuter p W H draws t (spawnInner p W H draws x (List.range H) img) := rfl
    rw [hstep, ih _ i (fun x' hx' => h x' (List.mem_cons_of_mem x hx'))]
    exact spawnInner_ne p W H draws x (List.range H) img i
      (fun y hy => h x (List.mem_cons_self x t) y (List.mem_range.mp hy))

/-- The outer loop writes exactly spawnVal at each in-range cell. -/
theorem spawnOuter_mem (p : ℚ) (W H : Nat) (draws : Nat → Nat) :
    ∀ (l : List Nat) (img : Nat → Int) (x0 y0 : Nat),
      x0 ∈ l → (∀ x ∈ l, x < W) → y0 < H →
      spawnOuter p W H draws l img (x0 + W * y0) = spawnVal p H draws x0 y0 := by
  intro l
  induction l with
  | nil => intro img x0 y0 h _ _; simp at h
  | cons x t ih =>
    intro img x0 y0 h hl hy0
    have hstep : spawnOuter p W H draws (x :: t) img =
        spawnOuter p W H draws t (spawnInner p W H draws x (List.range H) img) := rfl
    rw [hstep]
    by_cases hx : x0 ∈ t
    · exact ih _ x0 y0 hx (fun x' hx' => hl x' (List.mem_cons_of_mem x hx')) hy0
    · have hxx : x0 = x := by
        rcases List.mem_cons.mp h with h1 | h2
        · exact h1
        · exact absurd h2 hx
      subst hxx
      have hx0W : x0 < W := hl x0 (List.mem_cons_self x0 t)
      have hpres : spawnOuter p W H draws t
          (spawnInner p W H draws x0 (List.range H) img) (x0 + W * y0) =
          spawnInner p W H draws x0 (List.range H) img (x0 + W * y0) := by
        apply spawnOuter_ne
        intro x' hx' y hy heq
        have hx'W : x' < W := hl x' (List.mem_cons_of_mem x0 hx')
        rcases gridIndex_inj W x0 x' y0 y hx0W hx'W heq with ⟨he, _⟩
        exact hx (he ▸ hx')
      rw [hpres]
      exact spawnInner_mem p W H draws x0 (Nat.lt_of_le_of_lt (Nat.zero_le x0) hx0W)
        (List.range H) img y0 (List.mem_range.mpr hy0)

/-- Claim C4 (amended): random seeding gives cell (x, y) the value determined
by its own draw (consumed in x-major order): the cell is written 1 (ALIVE as
the cpp revision encodes it) when draw mod 100 divided by 100 is at most the
density p, and 0 otherwise; the alive chance under uniform draws is therefore
(floor(100 p) + 1) / 100 rather than p. -/
theorem spawn_cell_formula (p : ℚ) (W H : Nat) (draws : Nat → Nat) (img0 : Nat → Int)
    (x y : Nat) (hx : x < W) (hy : y < H) :
    spawnPopulation p W H draws img0 (x + W * y) = spawnVal p H draws x y := by
  unfold spawnPopulation
  exact spawnOuter_mem p W H draws (List.range W) img0 x y (List.mem_range.mpr hx)
    (fun a ha => List.mem_range.mp ha) hy

/-- Witness for spawn_cell_formula at a concrete 2 x 2 grid and draw stream. -/
theorem spawn_cell_formula_check :
    spawnPopulation (1/2) 2 2 (fun n => 30 * n) (fun _ => 5) (1 + 2 * 1) =
      spawnVal (1/2) 2 (fun n => 30 * n) 1 1 :=
  spawn_cell_formula (1/2) 2 2 (fun n => 30 * n) (fun _ => 5) 1 1 (by decide) (by decide)

/-- Claim C4 (counterexample): with density p = 0 the claim requires every
cell to be seeded DEAD, but on a 1 x 1 grid with draw 0 the single cell is
written 1, a live value. -/
theorem zero_density_spawns_live :
    spawnPopulation 0 1 1 (fun _ => 0) (fun _ => 7) (0 + 1 * 0) = 1 ∧ (1 : Int) ≠ 0 := by
  have h : spawnPopulation 0 1 1 (fun _ => 0) (fun _ => 7) (0 + 1 * 0) =
      spawnVal 0 1 (fun _ => 0) 0 0 := by
    unfold spawnPopulation
    exact spawnOuter_mem 0 1 1 (fun _ => 0) (List.range 1) (fun _ => 7) 0 0
      (by decide) (fun a ha => List.mem_range.mp ha) (by decide)
  rw [h]
  constructor
  · norm_num [spawnVal]
  · decide

/-- Claim C3: every live cell seeded by spawnPopulation is written with
intensity 1 (setState(x,y,1) at src/src/GameOfLife.cpp line 39), not with the
canonical ALIVE intensity 255 defined in src/inc/GameOfLife.hpp line 24; with
density 1 every draw takes the live branch. -/
theorem live_cell_written_as_one :
    spawnPopulation 1 1 1 (fun _ => 0) (fun _ => 7) (0 + 1 * 0) = 1 ∧ (1 : Int) ≠ 255 := by
  have h : spawnPopulation 1 1 1 (fun _ => 0) (fun _ => 7) (0 + 1 * 0) =
      spawnVal 1 1 (fun _ => 0) 0 0 := by
    unfold spawnPopulation
    exact spawnOuter_mem 1 1 1 (fun _ => 0) (List.range 1) (fun _ => 7) 0 0
      (by decide) (fun a ha => List.mem_range.mp ha) (by decide)
  rw [h]
  constructor
  · norm_num [spawnVal]
  · decide

/-- Claim C5: the seeded grid is a function of the rand() draw stream, which
the code derives from srand(time(NULL)); two draw streams standing for two
start times, with identical density and dimensions, give different grids. -/
theorem seeding_depends_on_time_draws :
    spawnPopulation (1/2) 1 1 (fun _ => 0) (fun _ => 7) (0 + 1 * 0) = 1 ∧
    spawnPopulation (1/2) 1 1 (fun _ => 60) (fun _ => 7) (0 + 1 * 0) = 0 ∧
    spawnPopulation (1/2) 1 1 (fun _ => 0) (fun _ => 7) (0 + 1 * 0) ≠
      spawnPopulation (1/2) 1 1 (fun _ => 60) (fun _ => 7) (0 + 1 * 0) := by
  have h0 : spawnPopulation (1/2) 1 1 (fun _ => 0) (fun _ => 7) (0 + 1 * 0) =
      spawnVal (1/2) 1 (fun _ => 0) 0 0 := by
    unfold spawnPopulation
    exact spawnOuter_mem (1/2) 1 1 (fun _ => 0) (List.range 1) (fun _ => 7) 0 0
      (by decide) (fun a ha => List.mem_range.mp ha) (by decide)
  have h60 : spawnPopulation (1/2) 1 1 (fun _ => 60) (fun _ => 7) (0 + 1 * 0) =
      spawnVal (1/2) 1 (fun _ => 60) 0 0 := by
    unfold spawnPopulation
    exact spawnOuter_mem (1/2) 1 1 (fun _ => 60) (List.range 1) (fun _ => 7) 0 0
      (by decide) (fun a ha => List.mem_range.mp ha) (by decide)
  have v0 : spawnVal (1/2) 1 (fun _ => 0) 0 0 = 1 := by norm_num [spawnVal]
  have v60 : spawnVal (1/2) 1 (fun _ => 60) 0 0 = 0 := by norm_num [spawnVal]
  refine ⟨by rw [h0, v0], by rw [h60, v60], by rw [h0, v0, h60, v60]; decide⟩

/-- Claim C8: calling switchPause twice returns the scheduler to exactly its
original state: paused, the running modes, and the generation counter are all
unchanged. -/
theorem pause_toggle_involutive (s : SchedState) : switchPause (switchPause s) = s := by
  cases s
  simp [switchPause]

/-- Claim C6 (amended): a failed setup always reports -1 to the caller, but
the state is rolled back only when host setup itself fails; when host setup
has succeeded and device setup fails (a thrown OpenCL call or the work-group
check), the allocated and seeded host image is left in place. -/
theorem setup_failure_surfaced (e : GolEnv) (s : HostState)
    (hm : e.mallocOk = true)
    (hd : e.clOk = false ∨ e.kernelWorkGroupSize < e.sizeX * e.sizeY) :
    (setup e s).1 = -1 ∧ (setup e s).2.image ≠ none := by
  rcases hd with hd | hd
  · unfold setup setupHost setupDevice
    simp [hm, hd]
  · unfold setup setupHost setupDevice
    cases hc : e.clOk <;> simp [hm, hc, hd]

/-- Witness for setup_failure_surfaced on the concrete environment where the
device try block throws. -/
theorem setup_failure_surfaced_check :
    (setup noClEnv freshState).1 = -1 ∧ (setup noClEnv freshState).2.image ≠ none :=
  setup_failure_surfaced noClEnv freshState rfl (Or.inl rfl)

/-- Claim C6 (counterexample): with host setup succeeding and device setup
failing, setup reports -1 but the observable state is not the one from before
setup: the host image has been allocated and seeded. -/
theorem setup_leaves_partial_state :
    (setup noClEnv freshState).1 = -1 ∧
    (setup noClEnv freshState).2.image ≠ freshState.image := by
  constructor
  · rfl
  · intro hcontra
    exact Option.noConfusion hcontra

/-- Claim C7: whenever the requested tile dimensions violate
sizeX * sizeY <= kernelWorkGroupSize, setup already returns -1 (the check at
src/src/GameOfLife.cpp lines 114-119), and a driver running setup before any
stepping computes zero generations; nextGeneration itself contains no such
check. -/
theorem tile_check_at_setup (e : GolEnv) (s : HostState) (n : Nat)
    (h : e.kernelWorkGroupSize < e.sizeX * e.sizeY) :
    (setup e s).1 = -1 ∧ simulate e s n = (-1, 0) := by
  have hs : (setup e s).1 = -1 := by
    unfold setup setupHost setupDevice
    cases hm : e.mallocOk <;> cases hc : e.clOk <;> simp [hm, hc, h]
  refine ⟨hs, ?_⟩
  unfold simulate
  simp [hs]

/-- Witness for tile_check_at_setup: tiles 32 x 32 against a limit of 256. -/
theorem tile_check_at_setup_check :
    (setup tileEnv freshState).1 = -1 ∧ simulate tileEnv freshState 5 = (-1, 0) :=
  tile_check_at_setup tileEnv freshState 5 (by decide)

/-- Claim C2: during a step all reads come from the front buffer (the new
generation is f applied to frontBuf s and to nothing else), the old front
buffer is preserved verbatim as the new back buffer (the step never mutates
it and never writes the buffer it reads), and the switchImages flag flips
exactly once per completed step. -/
theorem double_buffer_step (f : GridBuffer → GridBuffer) (s : GridState) :
    (stepGS f s).switchImages = !s.switchImages ∧
    frontBuf (stepGS f s) = f (frontBuf s) ∧
    backBuf (stepGS f s) = frontBuf s := by
  cases hs : s.switchImages <;> simp [stepGS, frontBuf, backBuf, hs]

/-- One step flips the switchImages flag. -/
theorem stepGS_flag (f : GridBuffer → GridBuffer) (s : GridState) :
    (stepGS f s).switchImages = !s.switchImages := by
  cases hs : s.switchImages <;> simp [stepGS, hs]

/-- An even number of steps restores the switchImages flag. -/
theorem stepsGS_parity (f : GridBuffer → GridBuffer) :
    ∀ (k : Nat) (s : GridState), (stepsGS f (2 * k) s).switchImages = s.switchImages := by
  intro k
  induction k with
  | zero => intro s; rfl
  | succ n ih =>
    intro s
    have h2 : 2 * (n + 1) = (2 * n + 1) + 1 := by omega
    rw [h2]
    show (stepsGS f (2 * n) (stepGS f (stepGS f s))).switchImages = s.switchImages
    rw [ih (stepGS f (stepGS f s)), stepGS_flag, stepGS_flag, Bool.not_not]

/-- Claim C9 (amended): getImage returns imageA unconditionally, so it agrees
with the front buffer exactly while imageA plays the front role - in
particular after any even number of completed steps from the initial
switchImages = true state. -/
theorem getImage_front_after_even_steps (f : GridBuffer → GridBuffer) (s : GridState)
    (k : Nat) (h : s.switchImages = true) :
    getImage (stepsGS f (2 * k) s) = frontBuf (stepsGS f (2 * k) s) := by
  have hf : (stepsGS f (2 * k) s).switchImages = true := by
    rw [stepsGS_parity f k s, h]
  unfold getImage frontBuf
  rw [hf]
  simp

/-- Witness for getImage_front_after_even_steps after two identity steps. -/
theorem getImage_front_after_even_steps_check :
    getImage (stepsGS idStep (2 * 1) parityDemo) = frontBuf (stepsGS idStep (2 * 1) parityDemo) :=
  getImage_front_after_even_steps idStep parityDemo 1 rfl

/-- Claim C9 (counterexample): after one completed step from a state whose
front buffer is all alive, the freshly computed generation lives in imageB
(the new front), yet getImage still returns imageA: at cell (0,0) getImage
yields 255 while the front buffer holds 0. -/
theorem getImage_not_front :
    getImage (stepGS lifeStep1 overcrowded) 0 0 = 255 ∧
    frontBuf (stepGS lifeStep1 overcrowded) 0 0 = 0 ∧
    getImage (stepGS lifeStep1 overcrowded) 0 0 ≠
      frontBuf (stepGS lifeStep1 overcrowded) 0 0 := by
  refine ⟨by decide, by decide, by decide⟩

/-- The sequential inner loop leaves cells it never writes untouched. -/
theorem seqRow_ne (W H : Nat) (pol : Policy) (R : Rules) (g : GridBuffer) (x : Nat) :
    ∀ (l : List Nat) (b : GridBuffer) (a c : Nat),
      (a ≠ x ∨ c ∉ l) → seqRow W H pol R g x l b a c = b a c := by
  intro l
  induction l with
  | nil => intro b a c _; rfl
  | cons y t ih =>
    intro b a c h
    have hstep : seqRow W H pol R g x (y :: t) b =
        seqRow W H pol R g x t
          (writeCell b x y (applyRule R (g x y) (neighborCount W H pol g x y))) := rfl
    rw [hstep]
    have ht : a ≠ x ∨ c ∉ t := by
      rcases h with h | h
      · exact Or.inl h
      · exact Or.inr (fun hc => h (List.mem_cons_of_mem y hc))
    rw [ih _ a c ht]
    have hne : ¬(a = x ∧ c = y) := by
      rintro ⟨ha, hc⟩
      rcases h with h | h
      · exact h ha
      · exact h (hc ▸ List.mem_cons_self y t)
    simp [writeCell, hne]

/-- The sequential inner loop writes the rule value at each of its cells. -/
theorem seqRow_mem (W H : Nat) (pol : Policy) (R : Rules) (g : GridBuffer) (x : Nat) :
    ∀ (l : List Nat) (b : GridBuffer) (c : Nat), c ∈ l →
      seqRow W H pol R g x l b x c = applyRule R (g x c) (neighborCount W H pol g x c) := by
  intro l
  induction l with
  | nil => intro b c h; simp at h
  | cons y t ih =>
    intro b c h
    have hstep : seqRow W H pol R g x (y :: t) b =
        seqRow W H pol R g x t
          (writeCell b x y (applyRule R (g x y) (neighborCount W H pol g x y))) := rfl
    rw [hstep]
    by_cases hc : c ∈ t
    · exact ih _ c hc
    · have hcy : c = y := by
        rcases List.mem_cons.mp h with h1 | h2
        · exact h1
        · exact absurd h2 hc
      subst hcy
      rw [seqRow_ne W H pol R g x t _ x c (Or.inr hc)]
      simp [writeCell]

/-- The sequential outer loop leaves columns it never visits untouched. -/
theorem seqRows_ne (W H : Nat) (pol : Policy) (R : Rules) (g : GridBuffer) :
    ∀ (l : List Nat) (b : GridBuffer) (a c : Nat),
      a ∉ l → seqRows W H pol R g l b a c = b a c := by
  intro l
  induction l with
  | nil => intro b a c _; rfl
  | cons x t ih =>
    intro b a c h
    have hstep : seqRows W H pol R g (x :: t) b =
        seqRows W H pol R g t (seqRow W H pol R g x (List.range H) b) := rfl
    rw [hstep, ih _ a c (fun ha => h (List.mem_cons_of_mem x ha))]
    exact seqRow_ne W H pol R g x (List.range H) b a c
      (Or.inl (fun hax => h (hax ▸ List.mem_cons_self x t)))

/-- The sequential outer loop computes the rule value at each in-range cell. -/
theorem seqRows_mem (W H : Nat) (pol : Policy) (R : Rules) (g : GridBuffer) :
    ∀ (l : List Nat) (b : GridBuffer) (a c : Nat), a ∈ l → c < H →
      seqRows W H pol R g l b a c = applyRule R (g a c) (neighborCount W H pol g a c) := by
  intro l
  induction l with
  | nil => intro b a c h _; simp at h
  | cons x t ih =>
    intro b a c h hc
    have hstep : seqRows W H pol R g (x :: t) b =
        seqRows W H pol R g t (seqRow W H pol R g x (List.range H) b) := rfl
    rw [hstep]
    by_cases ha : a ∈ t
    · exact ih _ a c ha hc
    · have hax : a = x := by
        rcases List.mem_cons.mp h with h1 | h2
        · exact h1
        · exact absurd h2 ha
      subst hax
      rw [seqRows_ne W H pol R g t _ a c ha]
      exact seqRow_mem W H pol R g a (List.range H) b c (List.mem_range.mpr hc)

/-- At every in-range cell the sequential step agrees with the parallel
per-cell map: the write order cannot matter because each cell is written once
and all reads go to the front buffer. -/
theorem seqStepFrom_cell (W H : Nat) (pol : Policy) (R : Rules) (g b0 : GridBuffer)
    (x y : Nat) (hx : x < W) (hy : y < H) :
    seqStepFrom W H pol R g b0 x y = parStep W H pol R g x y := by
  unfold seqStepFrom parStep
  exact seqRows_mem W H pol R g (List.range W) b0 x y (List.mem_range.mpr hx) hy

/-- liveAt only reads in-range cells of the front buffer, so buffers that
agree on the grid give equal contributions. -/
theorem liveAt_congr (W H : Nat) (pol : Policy) (g g' : GridBuffer)
    (hW : 0 < W) (hH : 0 < H)
    (h : ∀ a b, a < W → b < H → g a b = g' a b) (cx cy : Int) :
    liveAt W H pol g cx cy = liveAt W H pol g' cx cy := by
  cases pol with
  | wrap =>
    have ex0 : 0 ≤ cx % (W : Int) := Int.emod_nonneg cx (by exact_mod_cast hW.ne')
    have ex1 : cx % (W : Int) < (W : Int) := Int.emod_lt_of_pos cx (by exact_mod_cast hW)
    have ey0 : 0 ≤ cy % (H : Int) := Int.emod_nonneg cy (by exact_mod_cast hH.ne')
    have ey1 : cy % (H : Int) < (H : Int) := Int.emod_lt_of_pos cy (by exact_mod_cast hH)
    have hx' : (cx % (W : Int)).toNat < W := by omega
    have hy' : (cy % (H : Int)).toNat < H := by omega
    simp only [liveAt]
    rw [h _ _ hx' hy']
  | clamp =>
    simp only [liveAt]
    by_cases hin : 0 ≤ cx ∧ cx < (W : Int) ∧ 0 ≤ cy ∧ cy < (H : Int)
    · obtain ⟨h1, h2, h3, h4⟩ := hin
      have hg : g cx.toNat cy.toNat = g' cx.toNat cy.toNat :=
        h cx.toNat cy.toNat (by omega) (by omega)
      rw [hg]
    · simp [hin]

/-- Neighbour counts agree for buffers that agree on the grid. -/
theorem neighborCount_congr (W H : Nat) (pol : Policy) (g g' : GridBuffer)
    (hW : 0 < W) (hH : 0 < H)
    (h : ∀ a b, a < W → b < H → g a b = g' a b) (x y : Nat) :
    neighborCount W H pol g x y = neighborCount W H pol g' x y := by
  simp only [neighborCount, liveAt_congr W H pol g g' hW hH h]

/-- The parallel per-cell map is determined, on the grid, by the in-range
cells of the front buffer. -/
theorem parStep_congr (W H : Nat) (pol : Policy) (R : Rules) (g g' : GridBuffer)
    (hW : 0 < W) (hH : 0 < H)
    (h : ∀ a b, a < W → b < H → g a b = g' a b) (x y : Nat)
    (hx : x < W) (hy : y < H) :
    parStep W H pol R g x y = parStep W H pol R g' x y := by
  unfold parStep
  rw [h x y hx hy, neighborCount_congr W H pol g g' hW hH h]

/-- Claim C1: for every front buffer, rule table, boundary policy and batch
count k, the batched parallel backend (k kernel launches ping-ponging device
buffers) produces exactly the buffer obtained by k sequential single steps:
the two agree on every cell of the grid. -/
theorem backend_equivalence (W H : Nat) (hW : 0 < W) (hH : 0 < H)
    (pol : Policy) (R : Rules) (k : Nat) (f b : GridBuffer) :
    ∀ x y, x < W → y < H →
      (seqIter W H pol R k (f, b)).1 x y = parIter W H pol R k f x y := by
  induction k with
  | zero => intro x y _ _; rfl
  | succ n ih =>
    intro x y hx hy
    have hstep : (seqIter W H pol R (n + 1) (f, b)).1 x y =
        seqStepFrom W H pol R (seqIter W H pol R n (f, b)).1
          (seqIter W H pol R n (f, b)).2 x y := rfl
    rw [hstep, seqStepFrom_cell W H pol R _ _ x y hx hy]
    have hpar : parIter W H pol R (n + 1) f x y =
        parStep W H pol R (parIter W H pol R n f) x y := rfl
    rw [hpar]
    exact parStep_congr W H pol R _ _ hW hH (fun a b' ha hb => ih a b' ha hb) x y hx hy

/-- Witness for backend_equivalence: a blinker on a 3 x 3 WRAP grid under the
23/3 rule, batched over 2 generations, checked at the centre cell. -/
theorem backend_equivalence_check :
    (seqIter 3 3 Policy.wrap lifeRules 2 (blinker, zeroBuf)).1 1 1 =
      parIter 3 3 Policy.wrap lifeRules 2 blinker 1 1 :=
  backend_equivalence 3 3 (by decide) (by decide) Policy.wrap lifeRules 2 blinker
    zeroBuf 1 1 (by decide) (by decide)

/-- Unfolding the countDigits loop when the comparison keeps it running. -/
theorem countDigitsLoop_step (fuel x v c : Nat) (h : v ≤ x) :
    countDigitsLoop (fuel + 1) x v c =
      countDigitsLoop fuel x (v * 10 % 4294967296) (c + 1) := by
  simp [countDigitsLoop, h]

/-- Unfolding the countDigits loop when the comparison stops it. -/
theorem countDigitsLoop_stop (fuel x v c : Nat) (h : x < v) :
    countDigitsLoop (fuel + 1) x v c = some c := by
  have hn : ¬ v ≤ x := by omega
  simp [countDigitsLoop, hn]

/-- Invariant run of the countDigits loop below the first wrapped comparison
value 1410065408 = 10 ^ 10 mod 2 ^ 32: the loop stops with the digit count. -/
theorem countDigitsLoop_correct :
    ∀ (fuel c x : Nat), 1 ≤ c → c ≤ 10 → x < 1410065408 → (c = 1 ∨ 10 ^ (c - 1) ≤ x) →
      11 ≤ c + fuel →
      ∃ d, countDigitsLoop fuel x (10 ^ c % 4294967296) c = some d ∧
        x < 10 ^ d ∧ (d = 1 ∨ 10 ^ (d - 1) ≤ x) := by
  intro fuel
  induction fuel with
  | zero => intro c x h1 h2 _ _ h5; omega
  | succ n ih =>
    intro c x h1 h2 h3 h4 h5
    by_cases hcx : 10 ^ c % 4294967296 ≤ x
    · have hc9 : c ≤ 9 := by
        by_contra hgt
        have hc10 : c = 10 := by omega
        subst hc10
        have hmod : (10 : Nat) ^ 10 % 4294967296 = 1410065408 := by norm_num
        omega
      have hcap : (10 : Nat) ^ c < 4294967296 := by
        calc (10 : Nat) ^ c ≤ 10 ^ 9 := Nat.pow_le_pow_right (by norm_num) hc9
        _ < 4294967296 := by norm_num
      have hpow : (10 : Nat) ^ c % 4294967296 = 10 ^ c := Nat.mod_eq_of_lt hcap
      rw [countDigitsLoop_step n x _ c hcx]
      have hv : 10 ^ c % 4294967296 * 10 % 4294967296 = 10 ^ (c + 1) % 4294967296 := by
        rw [Nat.mod_mul_mod, pow_succ]
      rw [hv]
      have hle : 10 ^ ((c + 1) - 1) ≤ x := by
        rw [hpow] at hcx
        simpa using hcx
      exact ih (c + 1) x (by omega) (by omega) h3 (Or.inr hle) (by omega)
    · have hstop : x < 10 ^ c % 4294967296 := by omega
      rw [countDigitsLoop_stop n x _ c hstop]
      refine ⟨c, rfl, ?_, h4⟩
      by_cases hc9 : c ≤ 9
      · have hcap : (10 : Nat) ^ c < 4294967296 := by
          calc (10 : Nat) ^ c ≤ 10 ^ 9 := Nat.pow_le_pow_right (by norm_num) hc9
          _ < 4294967296 := by norm_num
        have hpow : (10 : Nat) ^ c % 4294967296 = 10 ^ c := Nat.mod_eq_of_lt hcap
        omega
      · have hc10 : c = 10 := by omega
        subst hc10
        have hten : (10 : Nat) ^ 10 = 10000000000 := by norm_num
        omega

/-- At x = 2 ^ 32 - 1 every comparison value (being an unsigned int) is at
most x, so the loop never stops whatever the fuel. -/
theorem countDigitsLoop_saturated :
    ∀ (fuel v c : Nat), v < 4294967296 → countDigitsLoop fuel 4294967295 v c = none := by
  intro fuel
  induction fuel with
  | zero => intro v c _; rfl
  | succ n ih =>
    intro v c hv
    rw [countDigitsLoop_step n 4294967295 v c (by omega)]
    exact ih _ _ (Nat.mod_lt _ (by norm_num))

/-- Claim C10 (amended): for x below 1410065408 (the wrapped value of 10 ^ 10)
countDigits terminates and returns the number of decimal digits of x,
characterised by 10 ^ (d-1) <= x < 10 ^ d (with d = 1 for x < 10); the
comparison value is indeed computed mod 2 ^ 32, and exactly because of that
wrap the function miscounts larger inputs and never terminates at
x = 4294967295. -/
theorem countDigits_behavior :
    (∀ x : Nat, x < 1410065408 →
      ∃ d, countDigits x 10 = some d ∧ x < 10 ^ d ∧ (d = 1 ∨ 10 ^ (d - 1) ≤ x)) ∧
    (∀ fuel : Nat, countDigits 4294967295 fuel = none) := by
  constructor
  · intro x hx
    have h := countDigitsLoop_correct 10 1 x (by omega) (by omega) hx (Or.inl rfl) (by omega)
    have h10 : (10 : Nat) ^ 1 % 4294967296 = 10 := by norm_num
    rw [h10] at h
    exact h
  · intro fuel
    exact countDigitsLoop_saturated fuel 10 1 (by norm_num)

/-- Witness for countDigits_behavior: 12345 has 5 digits, and the loop at
x = 2 ^ 32 - 1 returns nothing for the concrete fuel 7. -/
theorem countDigits_behavior_check :
    (∃ d, countDigits 12345 10 = some d ∧ 12345 < 10 ^ d ∧
      (d = 1 ∨ 10 ^ (d - 1) ≤ 12345)) ∧
    countDigits 4294967295 7 = none :=
  ⟨countDigits_behavior.1 12345 (by decide), countDigits_behavior.2 7⟩

/-- Claim C10 (counterexample): 2000000000 has 10 decimal digits, yet
countDigits returns 12, because after count 10 the comparison value has
wrapped modulo 2 ^ 32 to 1410065408 and the loop keeps running. -/
theorem countDigits_wraps_at_two_billion :
    countDigits 2000000000 15 = some 12 ∧
    (10 : Nat) ^ 9 ≤ 2000000000 ∧ 2000000000 < (10 : Nat) ^ 10 := by
  refine ⟨by decide, by decide, by decide⟩
